import Mathlib

/-!
The HTTP gateway of `server.js` (voice-chat-bot)

A shallow embedding of the two request handlers of `server.js` (`POST /chat`,
`POST /voice-to-text`) and of the upload manager's `filename` callback, with the
properties of their request-handling contract.

JavaScript values are embedded as the JSON-shaped values the handlers see
(request bodies, provider responses, thrown errors).  The upstream provider is an
explicit test double: a function from the parameters of a call to its outcome.
Every call the handler makes is recorded, so that "zero calls" and "exactly one
call" are statements about the record.
-/

namespace VoiceChatBot

/-! ## JavaScript values -/

/-- The JavaScript values the handlers read and write: `undefined`, `null`,
booleans, numbers, strings, arrays and plain objects (own properties in order). -/
inductive JSVal where
  | undefined
  | null
  | bool (b : Bool)
  | num (q : Rat)
  | str (s : String)
  | arr (items : List JSVal)
  | obj (fields : List (String × JSVal))

namespace JSVal

instance : Inhabited JSVal := ⟨JSVal.undefined⟩

/-- JavaScript `ToBoolean`: `undefined`, `null`, `false`, zero and `""` are falsy,
every array and object is truthy. -/
def truthy : JSVal → Bool
  | undefined => false
  | null => false
  | bool b => b
  | num q => q != 0
  | str s => s != ""
  | arr _ => true
  | obj _ => true

/-- The values on which a property access throws and `?.` short-circuits. -/
def isNullish : JSVal → Bool
  | undefined => true
  | null => true
  | _ => false

/-- The test `typeof v === "string"`. -/
def isString : JSVal → Bool
  | str _ => true
  | _ => false

/-- The value of the named property `k` of a value that is not nullish.  The
handlers read the names `message`, `content`, `choices` and `text` only; none of
them is a built-in property of a boolean, number, string or array, so only a plain
object can hold one. -/
def prop (v : JSVal) (k : String) : JSVal :=
  match v with
  | obj fields => (fields.lookup k).getD undefined
  | _ => undefined

/-- The value of the indexed property `v[i]` of a value that is not nullish: the
`i`-th element of an array, the `i`-th character of a string, the property named
by the decimal index of an object. -/
def index (v : JSVal) (i : Nat) : JSVal :=
  match v with
  | arr items => items.getD i undefined
  | str s => match s.data.get? i with
    | some c => str (String.singleton c)
    | none => undefined
  | obj fields => (fields.lookup (toString i)).getD undefined
  | _ => undefined

/-- The `TypeError` the engine throws, as the object the `catch` block sees. -/
def typeError (text : String) : JSVal :=
  obj [("name", str "TypeError"), ("message", str text)]

/-- Rendering of a nullish value inside the engine's error texts. -/
def nullishName : JSVal → String
  | null => "null"
  | _ => "undefined"

/-- Property access `v.k`: throws a `TypeError` on `undefined` and `null`. -/
def member (v : JSVal) (k : String) : Except JSVal JSVal :=
  if v.isNullish then
    .error (typeError ("Cannot read properties of " ++ nullishName v ++ " (reading '" ++ k ++ "')"))
  else .ok (v.prop k)

/-- Optional chaining `v?.k`: `undefined` on a nullish `v`, never throws. -/
def optMember (v : JSVal) (k : String) : JSVal :=
  if v.isNullish then undefined else v.prop k

/-- Optional chaining `v?.[i]`. -/
def optIndex (v : JSVal) (i : Nat) : JSVal :=
  if v.isNullish then undefined else v.index i

/-- The operator `a || b`: `a` when it is truthy, else `b`. -/
def or (a b : JSVal) : JSVal :=
  if a.truthy then a else b

end JSVal

open JSVal

/-! ## Responses and the upstream provider -/

/-- What `res.status(s).json(body)` sends; `res.json(body)` alone sends status 200. -/
structure Response where
  status : Nat
  body : JSVal

/-- How an awaited upstream call ends: the promise resolves with a value or
rejects with a thrown value. -/
inductive Outcome where
  | resolves (value : JSVal)
  | rejects (reason : JSVal)

/-- One turn of the `messages` list of a chat-completion call. -/
structure ChatTurn where
  role : String
  content : JSVal

/-- The argument of `groq.chat.completions.create`. -/
structure ChatCompletionParams where
  model : String
  messages : List ChatTurn
  temperature : Rat

/-- The argument of `groq.audio.transcriptions.create`; `file` is the path the
read stream of `fs.createReadStream` is opened on. -/
structure TranscriptionParams where
  file : String
  model : String

/-- The paths that exist on disk. -/
abbrev Disk := List String

/-- `fs.existsSync`. -/
def existsSync (d : Disk) (p : String) : Bool :=
  d.contains p

/-- `fs.unlinkSync` on an existing path: the path is gone afterwards. -/
def unlinkSync (d : Disk) (p : String) : Disk :=
  d.filter (fun q => q != p)

/-- The upstream provider as a test double.  A chat completion is answered by its
outcome.  A transcription is awaited: it is answered by its outcome and by the
disk as the handler finds it when it resumes (other requests run while the
handler is suspended). -/
structure Groq where
  chatCompletionsCreate : ChatCompletionParams → Outcome
  audioTranscriptionsCreate : TranscriptionParams → Disk → Outcome × Disk

/-! ## `POST /chat` -/

/-- One run of the chat handler: the response sent (or the exception that left
the handler) and the upstream calls made, in order. -/
structure ChatRun where
  result : Except JSVal Response
  calls : List ChatCompletionParams

/-- The destructuring `const { message } = req.body`. -/
def destructureMessage (body : JSVal) : Except JSVal JSVal :=
  if body.isNullish then
    .error (typeError ("Cannot destructure property 'message' of 'req.body' as it is "
      ++ nullishName body ++ "."))
  else .ok (body.prop "message")

/-- The parameters the chat handler sends for the message `message`. -/
def chatParams (message : JSVal) : ChatCompletionParams :=
  { model := "llama-3.3-70b-versatile"
    messages := [{ role := "user", content := message }]
    temperature := 0.2 }

/-- The reply extraction of the chat handler (lines 63-68). -/
def replyText (response : JSVal) : JSVal :=
  let choice := (response.optMember "choices").optIndex 0
  ((choice.optMember "message").optMember "content").or
    ((choice.optMember "message").or
      ((choice.optMember "content").or
        (str "I couldn't generate a reply.")))

/-- The `catch` block shared by both handlers:
`res.status(500).json({ error: error.message || "Internal server error" })`.
Reading `error.message` throws when the caught value is nullish. -/
def catchBlock (error : JSVal) : Except JSVal Response :=
  match error.member "message" with
  | .error thrown => .error thrown
  | .ok message => .ok ⟨500, obj [("error", message.or (str "Internal server error"))]⟩

/-- The `try` block of the chat handler: what it completes with (a response, or a
thrown value for the `catch` block) and the calls it made. -/
def chatTry (groq : Groq) (body : JSVal) : Except JSVal Response × List ChatCompletionParams :=
  match destructureMessage body with
  | .error thrown => (.error thrown, [])
  | .ok message =>
    if !message.truthy then
      (.ok ⟨400, obj [("reply", str "Message is required")]⟩, [])
    else
      match groq.chatCompletionsCreate (chatParams message) with
      | .rejects reason => (.error reason, [chatParams message])
      | .resolves response =>
        (.ok ⟨200, obj [("reply", replyText response)]⟩, [chatParams message])

/-- The handler of `POST /chat` on the request body `body`. -/
def chatHandler (groq : Groq) (body : JSVal) : ChatRun :=
  match chatTry groq body with
  | (.ok response, calls) => ⟨.ok response, calls⟩
  | (.error error, calls) => ⟨catchBlock error, calls⟩

/-! ## `POST /voice-to-text` -/

/-- The `req.file` object multer attaches for an uploaded file. -/
structure UploadedFile where
  originalname : Option String
  path : String

/-- One run of the transcription handler: the response sent (or the exception
that left the handler), the upstream calls made and the disk it leaves. -/
structure VoiceRun where
  result : Except JSVal Response
  calls : List TranscriptionParams
  disk : Disk

/-- The parameters the transcription handler sends for the uploaded file. -/
def transcriptionParams (file : UploadedFile) : TranscriptionParams :=
  { file := file.path, model := "whisper-large-v3-turbo" }

/-- The `try` block of the transcription handler. -/
def voiceTry (groq : Groq) (file : Option UploadedFile) (disk : Disk) : VoiceRun :=
  match file with
  | none => ⟨.ok ⟨400, obj [("error", str "Audio file is required.")]⟩, [], disk⟩
  | some f =>
    match groq.audioTranscriptionsCreate (transcriptionParams f) disk with
    | (.rejects reason, disk1) => ⟨.error reason, [transcriptionParams f], disk1⟩
    | (.resolves translation, disk1) =>
      match translation.member "text" with
      | .error thrown => ⟨.error thrown, [transcriptionParams f], disk1⟩
      | .ok text => ⟨.ok ⟨200, obj [("text", text.or (str ""))]⟩, [transcriptionParams f], disk1⟩

/-- The `finally` block: `if (file && fs.existsSync(file.path)) fs.unlinkSync(file.path)`. -/
def finallyBlock (file : Option UploadedFile) (disk : Disk) : Disk :=
  match file with
  | none => disk
  | some f => if existsSync disk f.path then unlinkSync disk f.path else disk

/-- The handler of `POST /voice-to-text` on `req.file`, started on the disk `disk`. -/
def voiceToTextHandler (groq : Groq) (file : Option UploadedFile) (disk : Disk) : VoiceRun :=
  let tried := voiceTry groq file disk
  let result := match tried.result with
    | .ok response => .ok response
    | .error error => catchBlock error
  ⟨result, tried.calls, finallyBlock file tried.disk⟩

/-! ## The upload manager -/

/-- The operator `a || b` on two strings: `a` unless it is empty. -/
def strOr (a b : String) : String :=
  if a != "" then a else b

/-- The expression `file.originalname || ""`, where `originalname` is a string or
is absent. -/
def originalnameOrEmpty (originalname : Option String) : String :=
  match originalname with
  | none => ""
  | some name => strOr name ""

/-- The `filename` callback of the disk storage (lines 29-32):
`ext = path.extname(file.originalname || "") || ".webm"`, and the name is the
template literal `${Date.now()}${ext}`.  `path.extname` belongs to the runtime
library and is a parameter, and so is the clock reading `now` of `Date.now()`, a
count of milliseconds that is rendered in decimal digits. -/
def filename (extname : String → String) (now : Nat) (originalname : Option String) : String :=
  let ext := strOr (extname (originalnameOrEmpty originalname)) ".webm"
  toString now ++ ext

/-! ### A model of the library's `path.extname`

The POSIX `path.extname` of the runtime scans the path backwards once.  It is
given here so that the callback can be run on concrete names. -/

/-- The variables of the backward scan. -/
structure ExtnameScan where
  startDot : Int
  startPart : Int
  endIdx : Int
  matchedSlash : Bool
  preDotState : Int

/-- The variables before the scan starts. -/
def ExtnameScan.init : ExtnameScan :=
  { startDot := -1, startPart := 0, endIdx := -1, matchedSlash := true, preDotState := 0 }

/-- The scan `for (i = path.length - 1; i >= 0; --i)` with `n` positions left, the
next being `n - 1`.  A separator after the last component ends the scan. -/
def extnameLoop (path : List Char) : Nat → ExtnameScan → ExtnameScan
  | 0, st => st
  | i + 1, st =>
    let code := path.getD i '/'
    if code = '/' then
      if !st.matchedSlash then { st with startPart := (i : Int) + 1 }
      else extnameLoop path i st
    else
      let st1 := if st.endIdx = -1 then { st with matchedSlash := false, endIdx := (i : Int) + 1 } else st
      let st2 :=
        if code = '.' then
          if st1.startDot = -1 then { st1 with startDot := (i : Int) }
          else if st1.preDotState ≠ 1 then { st1 with preDotState := 1 }
          else st1
        else if st1.startDot ≠ -1 then { st1 with preDotState := -1 }
        else st1
      extnameLoop path i st2

/-- The result of `path.extname` from the variables the scan ends with: empty
when no dot was seen, when the component starts with its only dot, or when the
component is `..`; otherwise the slice from the last dot to the end of the
component. -/
def extnameResult (path : List Char) (st : ExtnameScan) : String :=
  if st.startDot = -1 || st.endIdx = -1 || st.preDotState = 0 ||
      (st.preDotState = 1 && st.startDot = st.endIdx - 1 && st.startDot = st.startPart + 1) then ""
  else String.mk ((path.drop st.startDot.toNat).take (st.endIdx.toNat - st.startDot.toNat))

/-- The POSIX `path.extname`. -/
def posixExtname (path : String) : String :=
  extnameResult path.data (extnameLoop path.data path.data.length ExtnameScan.init)

/-- The number a list of decimal digits denotes. -/
def decimalValue (cs : List Char) : Nat :=
  cs.foldl (fun a c => 10 * a + (c.toNat - 48)) 0

/-! ## The contract in the words of the specification -/

/-- One step of a path into a response: a named field or a list position. -/
inductive Step where
  | field (k : String)
  | item (i : Nat)

/-- The value a path leads to, `undefined` as soon as a step has nothing to
start from. -/
def dig : JSVal → List Step → JSVal
  | v, [] => v
  | v, Step.field k :: rest => if v.isNullish then undefined else dig (v.prop k) rest
  | v, Step.item i :: rest => if v.isNullish then undefined else dig (v.index i) rest

/-- The fixed placeholder reply. -/
def placeholder : JSVal := str "I couldn't generate a reply."

/-- The ordered chain of the specification: `choices[0].message.content`,
`choices[0].message`, `choices[0].content`. -/
def replyChain (response : JSVal) : List JSVal :=
  [ dig response [Step.field "choices", Step.item 0, Step.field "message", Step.field "content"],
    dig response [Step.field "choices", Step.item 0, Step.field "message"],
    dig response [Step.field "choices", Step.item 0, Step.field "content"] ]

/-- The reply of the specification: the first truthy value of the chain, the
placeholder when there is none. -/
def specReply (response : JSVal) : JSVal :=
  ((replyChain response).find? truthy).getD placeholder

/-! ## Test doubles and sample values -/

/-- A provider that resolves every chat completion with `response` and every
transcription with `translation`, leaving the disk alone. -/
def groqResolving (response translation : JSVal) : Groq :=
  { chatCompletionsCreate := fun _ => .resolves response
    audioTranscriptionsCreate := fun _ disk => (.resolves translation, disk) }

/-- A provider whose calls all reject with `error`, leaving the disk alone. -/
def groqRejecting (error : JSVal) : Groq :=
  { chatCompletionsCreate := fun _ => .rejects error
    audioTranscriptionsCreate := fun _ disk => (.rejects error, disk) }

/-- The request body `{"message": "hello"}`. -/
def helloBody : JSVal := obj [("message", str "hello")]

/-- A provider response in the nested-content shape, replying `"hi there"`. -/
def nestedReply : JSVal :=
  obj [("choices", arr [obj [("message", obj [("role", str "assistant"), ("content", str "hi there")])]])]

/-- A provider response whose first choice has a message object without content. -/
def contentlessReply : JSVal :=
  obj [("choices", arr [obj [("message", obj [("role", str "assistant")])]])]

/-- A thrown `Error` with a message text. -/
def connectionError : JSVal :=
  obj [("name", str "Error"), ("message", str "Connection error.")]

/-- An uploaded file as multer hands it over. -/
def sampleUpload : UploadedFile :=
  { originalname := some "voice.ogg", path := "uploads/1700000000000.ogg" }

/-! ## Helper lemmas -/

theorem dig_undefined (path : List Step) : dig undefined path = undefined := by
  cases path with
  | nil => rfl
  | cons s rest => cases s <;> rfl

theorem optMember_eq_dig (v : JSVal) (k : String) : v.optMember k = dig v [Step.field k] := rfl

theorem optIndex_eq_dig (v : JSVal) (i : Nat) : v.optIndex i = dig v [Step.item i] := rfl

theorem dig_append (v : JSVal) (p q : List Step) : dig v (p ++ q) = dig (dig v p) q := by
  induction p generalizing v with
  | nil => rfl
  | cons s rest ih =>
    cases s with
    | field k =>
      simp only [List.cons_append, dig]
      split
      · exact (dig_undefined q).symm
      · exact ih _
    | item i =>
      simp only [List.cons_append, dig]
      split
      · exact (dig_undefined q).symm
      · exact ih _

theorem replyText_eq_specReply (response : JSVal) : replyText response = specReply response := by
  have h1 : dig response [Step.field "choices", Step.item 0, Step.field "message", Step.field "content"]
      = (((response.optMember "choices").optIndex 0).optMember "message").optMember "content" := by
    simp only [optMember_eq_dig, optIndex_eq_dig, ← dig_append, List.cons_append, List.nil_append]
  have h2 : dig response [Step.field "choices", Step.item 0, Step.field "message"]
      = ((response.optMember "choices").optIndex 0).optMember "message" := by
    simp only [optMember_eq_dig, optIndex_eq_dig, ← dig_append, List.cons_append, List.nil_append]
  have h3 : dig response [Step.field "choices", Step.item 0, Step.field "content"]
      = ((response.optMember "choices").optIndex 0).optMember "content" := by
    simp only [optMember_eq_dig, optIndex_eq_dig, ← dig_append, List.cons_append, List.nil_append]
  simp only [specReply, replyChain, replyText, h1, h2, h3, placeholder, JSVal.or, List.find?]
  cases ((((response.optMember "choices").optIndex 0).optMember "message").optMember "content").truthy <;>
  cases (((response.optMember "choices").optIndex 0).optMember "message").truthy <;>
  cases (((response.optMember "choices").optIndex 0).optMember "content").truthy <;> simp

theorem chatHandler_of_truthy (groq : Groq) (body message : JSVal)
    (hbody : destructureMessage body = .ok message) (hm : message.truthy = true) :
    chatHandler groq body =
      match groq.chatCompletionsCreate (chatParams message) with
      | .rejects reason => ⟨catchBlock reason, [chatParams message]⟩
      | .resolves response =>
        ⟨.ok ⟨200, obj [("reply", replyText response)]⟩, [chatParams message]⟩ := by
  simp only [chatHandler, chatTry, hbody, hm]
  cases groq.chatCompletionsCreate (chatParams message) <;> rfl

theorem chatHandler_resolves (groq : Groq) (body response : JSVal)
    (hbody : body.isNullish = false) (hmsg : (body.prop "message").truthy = true)
    (hup : groq.chatCompletionsCreate (chatParams (body.prop "message")) = .resolves response) :
    (chatHandler groq body).result = .ok ⟨200, obj [("reply", specReply response)]⟩ := by
  rw [chatHandler_of_truthy groq body _ (by simp [destructureMessage, hbody]) hmsg, hup]
  show Except.ok (Response.mk 200 (obj [("reply", replyText response)])) = _
  rw [replyText_eq_specReply]

theorem replyChain_of_choices (response : JSVal) :
    replyChain response =
      [ dig (dig response [Step.field "choices"]) [Step.item 0, Step.field "message", Step.field "content"],
        dig (dig response [Step.field "choices"]) [Step.item 0, Step.field "message"],
        dig (dig response [Step.field "choices"]) [Step.item 0, Step.field "content"] ] := by
  simp only [replyChain, ← dig_append, List.cons_append, List.nil_append]

theorem catchBlock_of_not_nullish (error : JSVal) (herr : error.isNullish = false) :
    catchBlock error
      = .ok ⟨500, obj [("error", (error.prop "message").or (str "Internal server error"))]⟩ := by
  simp [catchBlock, member, herr]

theorem catchBlock_of_nullish (error : JSVal) (herr : error.isNullish = true) :
    catchBlock error = .error (typeError
      ("Cannot read properties of " ++ nullishName error ++ " (reading '" ++ "message" ++ "')")) := by
  simp [catchBlock, member, herr]

theorem not_nullish_of_truthy_prop (v : JSVal) (k : String) (h : (v.prop k).truthy = true) :
    v.isNullish = false := by
  cases v <;> first | rfl | (simp [JSVal.prop, JSVal.truthy] at h)

theorem or_eq_ite (a b : JSVal) : a.or b = if a.truthy = true then a else b := rfl

theorem not_mem_finallyBlock (f : UploadedFile) (disk : Disk) :
    f.path ∉ finallyBlock (some f) disk := by
  show f.path ∉ if existsSync disk f.path = true then unlinkSync disk f.path else disk
  by_cases h : existsSync disk f.path = true
  · rw [if_pos h]
    simp [unlinkSync, List.mem_filter]
  · rw [if_neg h]
    simpa [existsSync] using h

/-! ### Decimal rendering -/

theorem toDigitsCore_append (fuel n : Nat) (ds : List Char) :
    Nat.toDigitsCore 10 fuel n ds = Nat.toDigitsCore 10 fuel n [] ++ ds := by
  induction fuel generalizing n ds with
  | zero => simp [Nat.toDigitsCore]
  | succ f ih =>
    simp only [Nat.toDigitsCore]
    split
    · simp
    · rw [ih (n / 10) (_ :: ds), ih (n / 10) [_]]
      simp

theorem digitChar_ne_dot : ∀ k, k < 10 → Nat.digitChar k ≠ '.' := by decide

theorem digitChar_value : ∀ k, k < 10 → (Nat.digitChar k).toNat - 48 = k := by decide

theorem toDigitsCore_no_dot (fuel n : Nat) :
    ∀ c ∈ Nat.toDigitsCore 10 fuel n [], c ≠ '.' := by
  induction fuel generalizing n with
  | zero => simp [Nat.toDigitsCore]
  | succ f ih =>
    intro c hc
    simp only [Nat.toDigitsCore] at hc
    split at hc
    · simp only [List.mem_singleton] at hc
      rw [hc]
      exact digitChar_ne_dot _ (Nat.mod_lt _ (by decide))
    · rw [toDigitsCore_append] at hc
      rcases List.mem_append.mp hc with h | h
      · exact ih _ c h
      · simp only [List.mem_singleton] at h
        rw [h]
        exact digitChar_ne_dot _ (Nat.mod_lt _ (by decide))

theorem decimalValue_toDigitsCore (fuel n : Nat) (h : n < fuel) :
    decimalValue (Nat.toDigitsCore 10 fuel n []) = n := by
  induction fuel generalizing n with
  | zero => omega
  | succ f ih =>
    simp only [Nat.toDigitsCore]
    split
    · rename_i h0
      simp only [decimalValue, List.foldl]
      rw [digitChar_value _ (Nat.mod_lt _ (by decide))]
      omega
    · rename_i h0
      rw [toDigitsCore_append]
      have hlt : n / 10 < f := by omega
      have := ih (n / 10) hlt
      simp only [decimalValue, List.foldl_append, List.foldl] at this ⊢
      rw [this, digitChar_value _ (Nat.mod_lt _ (by decide))]
      omega

theorem toString_data (t : Nat) : (toString t).data = Nat.toDigits 10 t := rfl

theorem toString_no_dot (t : Nat) : ∀ c ∈ (toString t).data, c ≠ '.' :=
  toDigitsCore_no_dot _ _

theorem toString_injective (t1 t2 : Nat) (h : (toString t1).data = (toString t2).data) : t1 = t2 := by
  have h1 := decimalValue_toDigitsCore (t1 + 1) t1 (by omega)
  have h2 := decimalValue_toDigitsCore (t2 + 1) t2 (by omega)
  rw [toString_data, toString_data, Nat.toDigits, Nat.toDigits] at h
  rw [h] at h1
  omega

theorem takeWhile_not_dot (l r : List Char) (hl : ∀ c ∈ l, c ≠ '.') :
    (l ++ '.' :: r).takeWhile (fun c => c != '.') = l := by
  induction l with
  | nil => simp
  | cons a l ih =>
    have ha : a ≠ '.' := hl a (List.mem_cons_self _ _)
    simp only [List.cons_append, List.takeWhile_cons]
    simp only [bne_iff_ne, ne_eq, ha, not_false_eq_true, ite_true]
    rw [ih (fun c hc => hl c (List.mem_cons_of_mem _ hc))]

/-! ### The scan of `path.extname` -/

theorem getD_eq_dot (path : List Char) (i : Nat) (h : path.getD i '/' = '.') :
    path.get? i = some '.' := by
  rw [List.getD_eq_getElem?_getD] at h
  cases hget : path[i]? with
  | none => rw [hget] at h; simp at h
  | some c => rw [hget] at h; simp at h; simp [List.get?_eq_getElem?, hget, h]

theorem extnameLoop_inv (path : List Char) (n : Nat) (st : ExtnameScan)
    (h : (st.endIdx = -1 ∨ (n : Int) ≤ st.endIdx) ∧
      (st.startDot = -1 ∨
        (0 ≤ st.startDot ∧ path.get? st.startDot.toNat = some '.' ∧ st.startDot < st.endIdx))) :
    (extnameLoop path n st).startDot = -1 ∨
      (0 ≤ (extnameLoop path n st).startDot ∧
        path.get? (extnameLoop path n st).startDot.toNat = some '.' ∧
        (extnameLoop path n st).startDot < (extnameLoop path n st).endIdx) := by
  induction n generalizing st with
  | zero => exact h.2
  | succ i ih =>
    obtain ⟨hend, hdot⟩ := h
    unfold extnameLoop
    simp only
    split
    · split
      · exact hdot
      · apply ih
        refine ⟨?_, hdot⟩
        rcases hend with h | h
        · exact Or.inl h
        · right; push_cast at h; omega
    · apply ih
      by_cases he : st.endIdx = -1
      · have hsd : st.startDot = -1 := by
          rcases hdot with h | ⟨h0, _, h2⟩
          · exact h
          · omega
        simp only [he, if_true, hsd]
        by_cases hc : path.getD i '/' = '.'
        · simp only [hc, if_true]
          refine ⟨Or.inr (by simp), Or.inr ⟨by simp, ?_, by simp⟩⟩
          simpa using getD_eq_dot path i hc
        · simp only [hc, if_false]
          refine ⟨Or.inr (by simp), Or.inl rfl⟩
          
      · have hle : ((i : Int) + 1) ≤ st.endIdx := by
          rcases hend with h | h
          · exact absurd h he
          · push_cast at h; exact h
        simp only [he, if_false]
        by_cases hc : path.getD i '/' = '.'
        · simp only [hc, if_true]
          by_cases hsd : st.startDot = -1
          · simp only [hsd, if_true]
            refine ⟨Or.inr (show (i : Int) ≤ st.endIdx by omega),
              Or.inr ⟨by simp, ?_, show (i : Int) < st.endIdx by omega⟩⟩
            simpa using getD_eq_dot path i hc
          · simp only [hsd, if_false]
            split
            · exact ⟨Or.inr (by simp; omega), hdot⟩
            · exact ⟨Or.inr (show (i : Int) ≤ st.endIdx by omega), hdot⟩
        · simp only [hc, if_false]
          split
          · exact ⟨Or.inr (by simp; omega), hdot⟩
          · exact ⟨Or.inr (show (i : Int) ≤ st.endIdx by omega), hdot⟩

theorem posixExtname_empty_or_dot (s : String) :
    posixExtname s = "" ∨ (posixExtname s).data.head? = some '.' := by
  unfold posixExtname extnameResult
  have hinv := extnameLoop_inv s.data s.data.length ExtnameScan.init
    ⟨Or.inl rfl, Or.inl rfl⟩
  generalize extnameLoop s.data s.data.length ExtnameScan.init = st at hinv ⊢
  split
  · exact Or.inl rfl
  · rename_i hcond
    right
    rcases hinv with h | ⟨h0, hget, hlt⟩
    · simp [h] at hcond
    · obtain ⟨k, hk⟩ := Int.eq_ofNat_of_zero_le h0
      rw [hk] at hget hlt ⊢
      simp only [Int.toNat_ofNat] at hget ⊢
      have hlen : k < s.data.length := by
        rw [List.get?_eq_getElem?] at hget
        exact (List.getElem?_eq_some_iff.mp hget).1
      have hdrop : s.data.drop k = '.' :: s.data.drop (k + 1) := by
        rw [List.get?_eq_getElem?] at hget
        have := (List.getElem?_eq_some_iff.mp hget).2
        rw [← this]
        exact List.drop_eq_getElem_cons hlen
      have hpos : st.endIdx.toNat - k = (st.endIdx.toNat - k - 1) + 1 := by omega
      rw [hdrop, hpos]
      simp

theorem originalnameOrEmpty_some (name : String) : originalnameOrEmpty (some name) = name := by
  simp only [originalnameOrEmpty, strOr]
  by_cases h : name = ""
  · simp [h]
  · simp [h]

theorem voiceToTextHandler_resolves (groq : Groq) (f : UploadedFile) (disk : Disk) (translation : JSVal)
    (hres : translation.isNullish = false)
    (hup : (groq.audioTranscriptionsCreate (transcriptionParams f) disk).1
      = .resolves translation) :
    (voiceToTextHandler groq (some f) disk).result
      = .ok ⟨200, obj [("text",
          if (translation.prop "text").truthy = true then translation.prop "text" else str "")]⟩ ∧
    (∀ s : String, s ≠ "" → translation.prop "text" = str s →
      (voiceToTextHandler groq (some f) disk).result = .ok ⟨200, obj [("text", str s)]⟩) ∧
    (translation.prop "text" = undefined ∨ translation.prop "text" = null ∨
        translation.prop "text" = str "" →
      (voiceToTextHandler groq (some f) disk).result = .ok ⟨200, obj [("text", str "")]⟩) := by
  have hrun : (voiceToTextHandler groq (some f) disk).result
      = .ok ⟨200, obj [("text",
          if (translation.prop "text").truthy = true then translation.prop "text" else str "")]⟩ := by
    cases hcall : groq.audioTranscriptionsCreate (transcriptionParams f) disk with
    | mk outcome disk1 =>
      rw [hcall] at hup
      simp only at hup
      subst hup
      simp [voiceToTextHandler, voiceTry, hcall, member, hres, or_eq_ite]
  refine ⟨hrun, ?_, ?_⟩
  · intro s hs htext
    rw [hrun, htext]
    simp [truthy, hs]
  · intro htext
    rw [hrun]
    rcases htext with h | h | h <;> rw [h] <;> rfl

/-! ## Properties of `POST /chat` -/

/-- C1, as stated, fails: a request whose body was not parsed (`req.body` is
undefined) has an absent `message`, yet the destructuring of line 52 throws and
the catch block answers with status 500, not with 400
`{reply: "Message is required"}`. -/
theorem chat_unparsed_body_500 :
    (JSVal.undefined.prop "message" = undefined ∨ JSVal.undefined.prop "message" = null ∨
      JSVal.undefined.prop "message" = str "") ∧
    (chatHandler (groqResolving nestedReply null) undefined).result
      = .ok ⟨500, obj [("error",
          str "Cannot destructure property 'message' of 'req.body' as it is undefined.")]⟩ ∧
    (chatHandler (groqResolving nestedReply null) undefined).result
      ≠ .ok ⟨400, obj [("reply", str "Message is required")]⟩ := by
  refine ⟨Or.inl rfl, rfl, ?_⟩
  intro h
  have hrun : (chatHandler (groqResolving nestedReply null) undefined).result
      = .ok ⟨500, obj [("error",
          str "Cannot destructure property 'message' of 'req.body' as it is undefined.")]⟩ := rfl
  rw [hrun] at h
  simp at h

/-- C1, amended: a chat request whose `message` is absent or empty (undefined,
null or the empty string) makes no call to the upstream chat-completion API, and
when its body was parsed to a value (`req.body` is not undefined or null) it is
answered with status 400 and body `{reply: "Message is required"}`. -/
theorem chat_missing_message_400 (groq : Groq) (body : JSVal)
    (hmsg : body.prop "message" = undefined ∨ body.prop "message" = null ∨
      body.prop "message" = str "") :
    (body.isNullish = false →
      (chatHandler groq body).result
        = .ok ⟨400, obj [("reply", str "Message is required")]⟩) ∧
    (chatHandler groq body).calls = [] := by
  have ht : (body.prop "message").truthy = false := by
    rcases hmsg with h | h | h <;> rw [h] <;> rfl
  constructor
  · intro hbody
    simp [chatHandler, chatTry, destructureMessage, hbody, ht]
  · cases hb : body.isNullish
    · simp [chatHandler, chatTry, destructureMessage, hb, ht]
    · simp [chatHandler, chatTry, destructureMessage, hb]

theorem chat_missing_message_400_witness :
    ((obj [("text", str "hello")]).prop "message" = undefined ∨
      (obj [("text", str "hello")]).prop "message" = null ∨
      (obj [("text", str "hello")]).prop "message" = str "") ∧
    (obj [("text", str "hello")]).isNullish = false ∧
    (chatHandler (groqResolving nestedReply null) (obj [("text", str "hello")])).result
      = .ok ⟨400, obj [("reply", str "Message is required")]⟩ ∧
    (chatHandler (groqResolving nestedReply null) (obj [("text", str "hello")])).calls = [] :=
  ⟨Or.inl rfl, rfl,
    (chat_missing_message_400 (groqResolving nestedReply null) (obj [("text", str "hello")])
      (Or.inl rfl)).1 rfl,
    (chat_missing_message_400 (groqResolving nestedReply null) (obj [("text", str "hello")])
      (Or.inl rfl)).2⟩

/-- C2: a chat request with a non-empty message whose upstream call returns
`response` is answered with status 200 and body `{reply: r}`, where `r` is the
first truthy value of the chain `choices[0].message.content`,
`choices[0].message`, `choices[0].content` and the fixed placeholder when none of
the three is truthy; a response without `choices` or with an empty `choices` list
gives the placeholder with status 200. -/
theorem chat_reply_extraction (groq : Groq) (body response : JSVal)
    (hbody : body.isNullish = false)
    (hmsg : (body.prop "message").truthy = true)
    (hup : groq.chatCompletionsCreate (chatParams (body.prop "message")) = .resolves response) :
    (chatHandler groq body).result
      = .ok ⟨200, obj [("reply",
          ((replyChain response).find? truthy).getD (str "I couldn't generate a reply."))]⟩ ∧
    ((∀ v ∈ replyChain response, v.truthy = false) →
      (chatHandler groq body).result
        = .ok ⟨200, obj [("reply", str "I couldn't generate a reply.")]⟩) ∧
    (dig response [Step.field "choices"] = undefined ∨
        dig response [Step.field "choices"] = arr [] →
      (chatHandler groq body).result
        = .ok ⟨200, obj [("reply", str "I couldn't generate a reply.")]⟩) := by
  have hrun := chatHandler_resolves groq body response hbody hmsg hup
  refine ⟨hrun, ?_, ?_⟩
  · intro hall
    rw [hrun, specReply, List.find?_eq_none.mpr (by simpa using hall)]
    rfl
  · intro hch
    have hchain : replyChain response = [undefined, undefined, undefined] := by
      rw [replyChain_of_choices]
      rcases hch with h | h <;> rw [h] <;> rfl
    rw [hrun, specReply, hchain]
    rfl

theorem chat_reply_extraction_witness :
    helloBody.isNullish = false ∧
    (helloBody.prop "message").truthy = true ∧
    (groqResolving nestedReply null).chatCompletionsCreate (chatParams (helloBody.prop "message"))
      = .resolves nestedReply ∧
    (chatHandler (groqResolving nestedReply null) helloBody).result
      = .ok ⟨200, obj [("reply", str "hi there")]⟩ :=
  ⟨rfl, rfl, rfl, (chat_reply_extraction (groqResolving nestedReply null) helloBody nestedReply
    rfl rfl rfl).1⟩

/-- C7: a chat request with a non-empty message `m` calls the upstream
chat-completion API exactly once, whatever the call answers (a result or an
exception), with model `llama-3.3-70b-versatile`, temperature 0.2 and the single
turn `{role: "user", content: m}`. -/
theorem chat_calls_upstream_once (groq : Groq) (body : JSVal)
    (hbody : body.isNullish = false)
    (hmsg : (body.prop "message").truthy = true) :
    (chatHandler groq body).calls
      = [{ model := "llama-3.3-70b-versatile"
           messages := [{ role := "user", content := body.prop "message" }]
           temperature := 0.2 }] := by
  rw [chatHandler_of_truthy groq body _ (by simp [destructureMessage, hbody]) hmsg]
  cases groq.chatCompletionsCreate (chatParams (body.prop "message")) <;> rfl

theorem chat_calls_upstream_once_witness :
    helloBody.isNullish = false ∧
    (helloBody.prop "message").truthy = true ∧
    (chatHandler (groqRejecting connectionError) helloBody).calls
      = [{ model := "llama-3.3-70b-versatile"
           messages := [{ role := "user", content := str "hello" }]
           temperature := 0.2 }] :=
  ⟨rfl, rfl, chat_calls_upstream_once (groqRejecting connectionError) helloBody rfl rfl⟩

/-- C9, as stated, fails: for the message `hello` and an upstream response whose
first choice has a message object without content, the handler answers 200 but no
string `s` makes the body `{reply: s}`; the reply is the message object. -/
theorem chat_reply_not_a_string :
    helloBody.isNullish = false ∧
    (helloBody.prop "message").truthy = true ∧
    (groqResolving contentlessReply null).chatCompletionsCreate
      (chatParams (helloBody.prop "message")) = .resolves contentlessReply ∧
    (chatHandler (groqResolving contentlessReply null) helloBody).result
      = .ok ⟨200, obj [("reply", obj [("role", str "assistant")])]⟩ ∧
    ¬ ∃ s : String, (chatHandler (groqResolving contentlessReply null) helloBody).result
      = .ok ⟨200, obj [("reply", str s)]⟩ := by
  refine ⟨rfl, rfl, rfl, rfl, ?_⟩
  rintro ⟨s, hs⟩
  have hrun : (chatHandler (groqResolving contentlessReply null) helloBody).result
      = .ok ⟨200, obj [("reply", obj [("role", str "assistant")])]⟩ := rfl
  rw [hrun] at hs
  simp at hs

/-- C9, amended: a chat request with a non-empty message whose upstream call
returns is answered with body `{reply: r}` where `r` is the first truthy value of
the chain itself, not converted; `r` is a string exactly when that value is a
string or no value of the chain is truthy. -/
theorem chat_reply_string_iff (groq : Groq) (body response : JSVal)
    (hbody : body.isNullish = false)
    (hmsg : (body.prop "message").truthy = true)
    (hup : groq.chatCompletionsCreate (chatParams (body.prop "message")) = .resolves response) :
    ∃ r, (chatHandler groq body).result = .ok ⟨200, obj [("reply", r)]⟩ ∧
      r = ((replyChain response).find? truthy).getD (str "I couldn't generate a reply.") ∧
      (r.isString = true ↔
        ∀ v, (replyChain response).find? truthy = some v → v.isString = true) := by
  refine ⟨specReply response, ?_, rfl, ?_⟩
  · exact chatHandler_resolves groq body response hbody hmsg hup
  · unfold specReply
    cases hfind : (replyChain response).find? truthy with
    | none => simp [placeholder, isString]
    | some v => simp

theorem chat_reply_string_iff_witness :
    helloBody.isNullish = false ∧
    (helloBody.prop "message").truthy = true ∧
    (groqResolving nestedReply null).chatCompletionsCreate (chatParams (helloBody.prop "message"))
      = .resolves nestedReply ∧
    ∃ r, (chatHandler (groqResolving nestedReply null) helloBody).result
        = .ok ⟨200, obj [("reply", r)]⟩ ∧
      r = ((replyChain nestedReply).find? truthy).getD (str "I couldn't generate a reply.") ∧
      (r.isString = true ↔
        ∀ v, (replyChain nestedReply).find? truthy = some v → v.isString = true) :=
  ⟨rfl, rfl, rfl, chat_reply_string_iff (groqResolving nestedReply null) helloBody nestedReply
    rfl rfl rfl⟩

/-! ## Properties of `POST /voice-to-text` -/

/-- C3: for a transcription request with an uploaded file stored at path `p`, and
for every outcome of the upstream call (a result or any thrown error), the disk
the handler leaves does not contain `p`. -/
theorem voice_temp_file_removed (groq : Groq) (f : UploadedFile) (disk : Disk) :
    f.path ∉ (voiceToTextHandler groq (some f) disk).disk :=
  not_mem_finallyBlock f _

/-- C4: a transcription request with no file attached is answered with status
400 and body `{error: "Audio file is required."}`, makes no upstream call and
leaves the disk exactly as it was. -/
theorem voice_missing_file_400 (groq : Groq) (disk : Disk) :
    (voiceToTextHandler groq none disk).result
      = .ok ⟨400, obj [("error", str "Audio file is required.")]⟩ ∧
    (voiceToTextHandler groq none disk).calls = [] ∧
    (voiceToTextHandler groq none disk).disk = disk :=
  ⟨rfl, rfl, rfl⟩

/-- C6, the code at the failing input: with a file attached and an upstream call
that resolves with `null`, reading `translation.text` (line 89) throws and the
catch block answers with status 500, not with 200 `{text: ""}`; the chat handler
on a `null` response answers 200 through `response?.choices`. -/
theorem voice_null_result_500 :
    ((groqResolving null null).audioTranscriptionsCreate
      (transcriptionParams sampleUpload) ["uploads/1700000000000.ogg"]).1 = .resolves null ∧
    (voiceToTextHandler (groqResolving null null) (some sampleUpload)
        ["uploads/1700000000000.ogg"]).result
      = .ok ⟨500, obj [("error", str "Cannot read properties of null (reading 'text')")]⟩ ∧
    (voiceToTextHandler (groqResolving null null) (some sampleUpload)
        ["uploads/1700000000000.ogg"]).result
      ≠ .ok ⟨200, obj [("text", str "")]⟩ ∧
    (chatHandler (groqResolving null null) helloBody).result
      = .ok ⟨200, obj [("reply", str "I couldn't generate a reply.")]⟩ := by
  refine ⟨rfl, rfl, ?_, rfl⟩
  intro h
  have hrun : (voiceToTextHandler (groqResolving null null) (some sampleUpload)
      ["uploads/1700000000000.ogg"]).result
      = .ok ⟨500, obj [("error", str "Cannot read properties of null (reading 'text')")]⟩ := rfl
  rw [hrun] at h
  simp at h

/-! ## Upstream failures -/

/-- C5, as stated, fails: when the upstream call rejects with `null`, reading
`error.message` throws inside the catch block (lines 73 and 92); in both handlers
the exception leaves the handler and no response with status 500 is sent. -/
theorem upstream_null_rejection_escapes :
    (helloBody.prop "message").truthy = true ∧
    (groqRejecting null).chatCompletionsCreate (chatParams (helloBody.prop "message"))
      = .rejects null ∧
    ((groqRejecting null).audioTranscriptionsCreate (transcriptionParams sampleUpload) []).1
      = .rejects null ∧
    (chatHandler (groqRejecting null) helloBody).result
      = .error (typeError "Cannot read properties of null (reading 'message')") ∧
    (voiceToTextHandler (groqRejecting null) (some sampleUpload) []).result
      = .error (typeError "Cannot read properties of null (reading 'message')") ∧
    (¬ ∃ e, (chatHandler (groqRejecting null) helloBody).result
      = .ok ⟨500, obj [("error", e)]⟩) ∧
    (¬ ∃ e, (voiceToTextHandler (groqRejecting null) (some sampleUpload) []).result
      = .ok ⟨500, obj [("error", e)]⟩) := by
  have hchat : (chatHandler (groqRejecting null) helloBody).result
      = .error (typeError "Cannot read properties of null (reading 'message')") := rfl
  have hvoice : (voiceToTextHandler (groqRejecting null) (some sampleUpload) []).result
      = .error (typeError "Cannot read properties of null (reading 'message')") := rfl
  refine ⟨rfl, rfl, rfl, hchat, hvoice, ?_, ?_⟩
  · rintro ⟨e, he⟩
    rw [hchat] at he
    simp at he
  · rintro ⟨e, he⟩
    rw [hvoice] at he
    simp at he

/-- C5, amended: in both handlers (chat with a non-empty message, transcription
with a file attached), when the upstream call throws a value other than `null` or
`undefined` the handler completes with status 500 and body `{error: e}`, where
`e` is the thrown value's `message` when it has a non-empty one and
`"Internal server error"` otherwise, and no exception leaves the handler; when the
thrown value is `null` or `undefined` the catch block itself throws and the
handler sends no response. -/
theorem upstream_failure_500 (groq : Groq) (body error1 error2 : JSVal) (f : UploadedFile)
    (disk : Disk)
    (hmsg : (body.prop "message").truthy = true) :
    (groq.chatCompletionsCreate (chatParams (body.prop "message")) = .rejects error1 →
      (error1.isNullish = false →
        (chatHandler groq body).result
          = .ok ⟨500, obj [("error",
              if (error1.prop "message").truthy = true then error1.prop "message"
              else str "Internal server error")]⟩) ∧
      (error1.isNullish = true → ∃ thrown, (chatHandler groq body).result = .error thrown)) ∧
    ((groq.audioTranscriptionsCreate (transcriptionParams f) disk).1 = .rejects error2 →
      (error2.isNullish = false →
        (voiceToTextHandler groq (some f) disk).result
          = .ok ⟨500, obj [("error",
              if (error2.prop "message").truthy = true then error2.prop "message"
              else str "Internal server error")]⟩) ∧
      (error2.isNullish = true →
        ∃ thrown, (voiceToTextHandler groq (some f) disk).result = .error thrown)) := by
  have hbody : body.isNullish = false := not_nullish_of_truthy_prop body "message" hmsg
  constructor
  · intro hchat
    rw [chatHandler_of_truthy groq body _ (by simp [destructureMessage, hbody]) hmsg, hchat]
    exact ⟨fun herr => catchBlock_of_not_nullish error1 herr,
      fun herr => ⟨_, catchBlock_of_nullish error1 herr⟩⟩
  · intro hvoice
    cases hcall : groq.audioTranscriptionsCreate (transcriptionParams f) disk with
    | mk outcome disk1 =>
      rw [hcall] at hvoice
      simp only at hvoice
      subst hvoice
      simp only [voiceToTextHandler, voiceTry, hcall]
      exact ⟨fun herr => catchBlock_of_not_nullish error2 herr,
        fun herr => ⟨_, catchBlock_of_nullish error2 herr⟩⟩

theorem upstream_failure_500_witness :
    (helloBody.prop "message").truthy = true ∧
    (groqRejecting connectionError).chatCompletionsCreate (chatParams (helloBody.prop "message"))
      = .rejects connectionError ∧
    ((groqRejecting connectionError).audioTranscriptionsCreate
      (transcriptionParams sampleUpload) []).1 = .rejects connectionError ∧
    connectionError.isNullish = false ∧
    (chatHandler (groqRejecting connectionError) helloBody).result
      = .ok ⟨500, obj [("error", str "Connection error.")]⟩ ∧
    (voiceToTextHandler (groqRejecting connectionError) (some sampleUpload) []).result
      = .ok ⟨500, obj [("error", str "Connection error.")]⟩ :=
  ⟨rfl, rfl, rfl, rfl,
    ((upstream_failure_500 (groqRejecting connectionError) helloBody connectionError
      connectionError sampleUpload [] rfl).1 rfl).1 rfl,
    ((upstream_failure_500 (groqRejecting connectionError) helloBody connectionError
      connectionError sampleUpload [] rfl).2 rfl).1 rfl⟩

/-! ## Properties of the upload manager -/

/-- C8: for every timestamp `t` and every original file name `n` (possibly
absent) the generated filename is the decimal rendering of `t` followed by `e`,
where `e` is `path.extname` of `n` when that is non-empty and `.webm` when it is
empty or `n` is absent.  `path.extname` is the library function, of which only
`extname "" = ""` is used. -/
theorem filename_timestamp_extension (extname : String → String) (hempty : extname "" = "")
    (t : Nat) (n : Option String) :
    filename extname t n = toString t ++
      (match n with
        | none => ".webm"
        | some name => if extname name = "" then ".webm" else extname name) := by
  cases n with
  | none => simp [filename, originalnameOrEmpty, strOr, hempty]
  | some name =>
    simp only [filename, originalnameOrEmpty_some, strOr]
    by_cases h : extname name = ""
    · simp [h]
    · simp [h]

theorem filename_timestamp_extension_witness :
    posixExtname "" = "" ∧
    filename posixExtname 1700000000000 (some "voice.ogg") = "1700000000000.ogg" ∧
    filename posixExtname 1700000000000 (some "voice") = "1700000000000.webm" ∧
    filename posixExtname 1700000000000 none = "1700000000000.webm" :=
  ⟨rfl, filename_timestamp_extension posixExtname rfl 1700000000000 (some "voice.ogg"),
    filename_timestamp_extension posixExtname rfl 1700000000000 (some "voice"),
    filename_timestamp_extension posixExtname rfl 1700000000000 none⟩

/-- C10: generated filenames are distinct at timestamp granularity.  Provided
`path.extname` returns the empty string or a string that begins with a dot, the
characters of a generated filename before its first dot are the decimal timestamp,
and two uploads whose timestamps differ get different filenames whatever their
original names. -/
theorem filename_distinct_timestamps (extname : String → String)
    (hdot : ∀ s, extname s = "" ∨ (extname s).data.head? = some '.') :
    (∀ (t : Nat) (n : Option String),
      (filename extname t n).data.takeWhile (fun c => c != '.') = (toString t).data) ∧
    (∀ (t1 t2 : Nat) (n1 n2 : Option String), t1 ≠ t2 →
      filename extname t1 n1 ≠ filename extname t2 n2) := by
  have hstem : ∀ (t : Nat) (n : Option String),
      (filename extname t n).data.takeWhile (fun c => c != '.') = (toString t).data := by
    intro t n
    have hext : ∃ r, (strOr (extname (originalnameOrEmpty n)) ".webm").data = '.' :: r := by
      unfold strOr
      rcases hdot (originalnameOrEmpty n) with h | h
      · rw [h]
        exact ⟨_, rfl⟩
      · have hne : extname (originalnameOrEmpty n) ≠ "" := by
          intro h0
          rw [h0] at h
          simp at h
        simp only [bne_iff_ne, ne_eq, hne, not_false_eq_true, ite_true]
        cases hd : (extname (originalnameOrEmpty n)).data with
        | nil => rw [hd] at h; simp at h
        | cons c r =>
          rw [hd] at h
          simp only [List.head?_cons, Option.some.injEq] at h
          exact ⟨r, by rw [h]⟩
    obtain ⟨r, hr⟩ := hext
    simp only [filename, String.data_append, hr]
    exact takeWhile_not_dot _ r (toString_no_dot t)
  refine ⟨hstem, ?_⟩
  intro t1 t2 n1 n2 hne heq
  apply hne
  apply toString_injective
  rw [← hstem t1 n1, ← hstem t2 n2, heq]

theorem filename_distinct_timestamps_witness :
    (1700000000000 : Nat) ≠ 1700000000001 ∧
    filename posixExtname 1700000000000 (some "voice.ogg")
      ≠ filename posixExtname 1700000000001 (some "voice.ogg") :=
  ⟨by decide, (filename_distinct_timestamps posixExtname posixExtname_empty_or_dot).2
    1700000000000 1700000000001 (some "voice.ogg") (some "voice.ogg") (by decide)⟩

end VoiceChatBot
